import Mathlib

/-!
Shallow embedding of `src/example-agent.py`, a sequential demo agent that
prints progress lines on a delay and reacts to termination signals by
setting a global `interrupted` flag which the task loops poll at
checkpoints.

Modelling choices:
* The observable state `St` carries a tick counter `time` (one tick per
  `time.sleep` opportunity, plus one startup tick), the global
  `interrupted` flag, the list `out` of strings passed to `print` on
  stdout (each `print` call is one entry; embedded `\n` characters are
  kept verbatim), and an instrumentation list `obs` recording the value
  of the flag at every point where the program reads it (`if interrupted`
  / `if not interrupted` checkpoints).
* Signal delivery is a schedule `f : Nat → Bool`: `f n = true` means a
  SIGINT/SIGTERM arrives during tick `n`, invoking `signal_handler`
  (which prints one informational line and sets the flag).  This captures
  the Python semantics that the handler runs asynchronously but only
  between observable events, interrupting at most the current sleep.
* `delay` is modelled as a rational number standing for the parsed float;
  only its sign is ever relevant (`time.sleep` raises
  `ValueError: sleep length must be non-negative` on negative arguments).
* Fallible execution is `Except (String × St) St`: an error carries the
  Python exception message together with the state (output printed so
  far) at the moment of the raise, matching the fact that previously
  printed lines remain on stdout when an exception propagates.
-/

/-- Process state: tick counter, interrupt flag, stdout lines, and the
instrumented trace of flag observations at checkpoints. -/
structure St where
  time : Nat
  interrupted : Bool
  out : List String
  obs : List Bool
deriving DecidableEq, Repr

/-- Initial state of the process: flag starts `false`, nothing printed. -/
def st0 : St := { time := 0, interrupted := false, out := [], obs := [] }

/-- The line printed by `signal_handler` (example-agent.py line 27). -/
def sigLine : String := "\n[INFO] Received interrupt signal, shutting down gracefully..."

/-- Model of `signal_handler`: print the informational line and set the flag
(example-agent.py lines 24-28). -/
def handlerFire (s : St) : St :=
  { s with out := s.out ++ [sigLine], interrupted := true }

/-- One `print(x)` call appending `x` to stdout. -/
def pr (x : String) (s : St) : St := { s with out := s.out ++ [x] }

/-- Several consecutive `print` calls. -/
def prList (xs : List String) (s : St) : St := { s with out := s.out ++ xs }

/-- Instrumentation: the program reads the `interrupted` flag; the value
read is logged in `obs`.  Does not change the observable behaviour. -/
def record (s : St) : St := { s with obs := s.obs ++ [s.interrupted] }

/-- Advance one tick; if the schedule delivers a signal during this tick,
the handler runs. -/
def checkFire (f : Nat → Bool) (s : St) : St :=
  let s1 := if f s.time then handlerFire s else s
  { s1 with time := s1.time + 1 }

/-- Result of a fallible computation: on error, the Python exception
message plus the state at the raise. -/
abbrev ERes := Except (String × St) St

instance : DecidableEq ERes := fun a b =>
  match a, b with
  | .error e1, .error e2 => decidable_of_iff (e1 = e2) (by simp)
  | .error e1, .ok s2 => isFalse (by simp)
  | .ok s1, .error e2 => isFalse (by simp)
  | .ok s1, .ok s2 => decidable_of_iff (s1 = s2) (by simp)

/-- The message of the `ValueError` raised by `time.sleep` on a negative
argument. -/
def sleepErrMsg : String := "sleep length must be non-negative"

/-- Model of `time.sleep(d)`: raises on negative `d`, otherwise consumes one tick
(during which a signal may arrive). -/
def sleep (f : Nat → Bool) (d : ℚ) (s : St) : ERes :=
  if d < 0 then .error (sleepErrMsg, s) else .ok (checkFire f s)

/-- The step line of `task_count` (line 40). -/
def countLine (i : Nat) : String := "Count: " ++ toString i ++ "/20"

/-- The `for i in range(1, 21)` loop of `task_count` (lines 37-41):
check the flag (break if set), print the count line, sleep. -/
def countLoop (f : Nat → Bool) (d : ℚ) : List Nat → St → ERes
  | [], s => .ok s
  | i :: rest, s =>
    let s := record s
    if s.interrupted then .ok s
    else
      match sleep f d (pr (countLine i) s) with
      | .error e => .error e
      | .ok s2 => countLoop f d rest s2

/-- Embedding of `task_count` (lines 34-42).  Note: the success line is printed
unconditionally after the loop, even when the loop exited via `break`. -/
def task_count (f : Nat → Bool) (d : ℚ) (s : St) : ERes :=
  match countLoop f d (List.range' 1 20) (pr "[INFO] Starting counting task..." s) with
  | .error e => .error e
  | .ok s1 => .ok (pr "[SUCCESS] Counting task completed!" s1)

/-- The `steps` list of `task_analyze` (lines 46-55). -/
def analyzeSteps : List String :=
  ["Loading data...", "Preprocessing data...", "Analyzing patterns...",
   "Computing statistics...", "Generating insights...", "Validating results...",
   "Preparing report...", "Finalizing analysis..."]

/-- The numbered step line `f"[{i}/{len(steps)}] {step}"`. -/
def stepLine (i total : Nat) (step : String) : String :=
  "[" ++ toString i ++ "/" ++ toString total ++ "] " ++ step

/-- The synthetic insight lines printed after steps 3, 4, 5 (lines 65-70). -/
def insightLines (i : Nat) : List String :=
  if i = 3 then ["  → Found 42 patterns"]
  else if i = 4 then ["  → Mean: 123.45, Median: 118.20"]
  else if i = 5 then ["  → Key insight: Trend is increasing by 15%"]
  else []

/-- Python `enumerate(xs, 1)`. -/
def enumerate1 (xs : List String) : List (Nat × String) :=
  (List.range' 1 xs.length).zip xs

/-- The `for i, step in enumerate(steps, 1)` loop of `task_analyze`
(lines 58-70). -/
def analyzeLoop (f : Nat → Bool) (d : ℚ) : List (Nat × String) → St → ERes
  | [], s => .ok s
  | (i, step) :: rest, s =>
    let s := record s
    if s.interrupted then .ok s
    else
      match sleep f d (pr (stepLine i analyzeSteps.length step) s) with
      | .error e => .error e
      | .ok s2 => analyzeLoop f d rest (prList (insightLines i) s2)

/-- Embedding of `task_analyze` (lines 44-74): the success and result lines are
guarded by `if not interrupted`. -/
def task_analyze (f : Nat → Bool) (d : ℚ) (s : St) : ERes :=
  match analyzeLoop f d (enumerate1 analyzeSteps) (pr "[INFO] Starting analysis task..." s) with
  | .error e => .error e
  | .ok s1 =>
    let s1 := record s1
    if s1.interrupted then .ok s1
    else .ok (pr "[RESULT] Overall score: 87.5/100"
        (pr "[SUCCESS] Analysis completed successfully!" s1))

/-- The `files` list of `task_process` (lines 80-86). -/
def processFiles : List String :=
  ["data_001.csv", "data_002.csv", "data_003.csv", "data_004.csv", "data_005.csv"]

/-- The sub-step names of `task_process` (line 96). -/
def subStepNames : List String := ["Reading", "Parsing", "Transforming", "Validating", "Writing"]

/-- The per-file header line `f"[{i}/{len(files)}] Processing {filename}..."`. -/
def procLine (i : Nat) (fn : String) : String :=
  "[" ++ toString i ++ "/" ++ toString processFiles.length ++ "] Processing " ++ fn ++ "..."

/-- The inner `for step in steps` loop of `task_process` (lines 97-101):
check the flag, print the sub-step line, sleep `delay * 0.2`. -/
def subLoop (f : Nat → Bool) (d : ℚ) : List String → St → ERes
  | [], s => .ok s
  | step :: rest, s =>
    let s := record s
    if s.interrupted then .ok s
    else
      match sleep f (d * (1/5)) (pr ("  • " ++ step ++ "... OK") s) with
      | .error e => .error e
      | .ok s2 => subLoop f d rest s2

/-- The outer `for i, filename in enumerate(files, 1)` loop of
`task_process` (lines 88-103).  Note the per-file check line is printed
unconditionally after the inner loop, even when that loop exited via
`break`. -/
def procLoop (f : Nat → Bool) (d : ℚ) : List (Nat × String) → St → ERes
  | [], s => .ok s
  | (i, fn) :: rest, s =>
    let s := record s
    if s.interrupted then .ok s
    else
      match sleep f (d * (1/2)) (pr (procLine i fn) s) with
      | .error e => .error e
      | .ok s2 =>
        match subLoop f d subStepNames s2 with
        | .error e => .error e
        | .ok s3 => procLoop f d rest (pr ("  ✓ " ++ fn ++ " processed successfully") s3)

/-- Embedding of `task_process` (lines 76-107). -/
def task_process (f : Nat → Bool) (d : ℚ) (s : St) : ERes :=
  match procLoop f d (enumerate1 processFiles) (pr "[INFO] Starting data processing task..." s) with
  | .error e => .error e
  | .ok s1 =>
    let s1 := record s1
    if s1.interrupted then .ok s1
    else .ok (pr ("[RESULT] Processed " ++ toString processFiles.length ++ " files, 0 errors")
        (pr "[SUCCESS] All files processed!" s1))

/-- The `choices` of `--task` (line 115). -/
def validTasks : List String := ["count", "analyze", "process"]

/-- Parsed command-line configuration. -/
structure Config where
  task : String
  delay : ℚ
deriving DecidableEq

/-- The `argparse` parsing step (lines 110-126): `--task` is checked against
`choices`; `--delay` accepts any parsed float.  On an invalid choice,
argparse prints usage to stderr and exits with status 2 before `main`'s
body runs. -/
def parseArgs (task : String) (delay : ℚ) : Except Nat Config :=
  if task ∈ validTasks then .ok { task := task, delay := delay } else .error 2

/-- The banner separator, Python `"=" * 50`. -/
def sep50 : String := String.mk (List.replicate 50 '=')

/-- The banner printed by `main` (lines 128-134); the delay is rendered
by `toString` in place of Python float formatting. -/
def bannerOut (task : String) (d : ℚ) : List String :=
  [sep50, "AI Agent Example Script", sep50,
   "Task: " ++ task, "Delay: " ++ toString d ++ "s", sep50, ""]

/-- The task dispatch of `main` (lines 137-142). -/
def runTask (f : Nat → Bool) (cfg : Config) (s : St) : ERes :=
  if cfg.task = "count" then task_count f cfg.delay s
  else if cfg.task = "analyze" then task_analyze f cfg.delay s
  else if cfg.task = "process" then task_process f cfg.delay s
  else .ok s

/-- Observable result of a whole run: stdout lines, stderr lines, exit
status, and the instrumented checkpoint observations. -/
structure RunResult where
  stdout : List String
  stderr : List String
  exitCode : Nat
  obs : List Bool
deriving DecidableEq, Repr

/-- The exit logic of `main` (lines 144-156): on a propagated exception,
report it on stderr and exit 1; otherwise read the flag once more and
print the warning (exit 1) or the final info line (exit 0). -/
def finish (r : ERes) : RunResult :=
  match r with
  | .error (msg, s) =>
    { stdout := s.out, stderr := ["\n[ERROR] Unexpected error: " ++ msg],
      exitCode := 1, obs := s.obs }
  | .ok s =>
    let s := record s
    if s.interrupted then
      { stdout := s.out ++ ["\n[WARNING] Task was interrupted!"], stderr := [],
        exitCode := 1, obs := s.obs }
    else
      { stdout := s.out ++ ["\n[INFO] Agent finished successfully"], stderr := [],
        exitCode := 0, obs := s.obs }

/-- Embedding of `main` (lines 109-156): parse, print the banner, run the selected
task, then apply the exit policy.  Tick 0 is the startup window in which
a signal may already arrive.  On an argparse failure nothing of `main`'s
body runs (usage goes to stderr, status 2). -/
def mainRun (f : Nat → Bool) (taskArg : String) (delayArg : ℚ) : RunResult :=
  match parseArgs taskArg delayArg with
  | .error c =>
    { stdout := [], stderr := ["usage: example-agent.py [--task] [--delay] (invalid choice)"],
      exitCode := c, obs := [] }
  | .ok cfg =>
    let s := prList (bannerOut cfg.task cfg.delay) (checkFire f st0)
    finish (runTask f cfg s)

/-- The all-quiet schedule: no signal ever arrives. -/
def cF : Nat → Bool := fun _ => false

/-- Schedule delivering a single signal during tick `k`. -/
def fAt (k : Nat) : Nat → Bool := fun n => decide (n = k)

/-- Character-level test that `x` starts with `pre`. -/
def strStarts (pre x : String) : Bool := pre.data.isPrefixOf x.data

/-- Expected final state of an uninterrupted `task_count` run from `st0`. -/
def cntFinal : St :=
  ⟨20, false,
   "[INFO] Starting counting task..." :: (List.range' 1 20).map countLine ++
     ["[SUCCESS] Counting task completed!"],
   List.replicate 20 false⟩

/-- Expected final state of an uninterrupted `task_analyze` run from `st0`. -/
def anFinal : St :=
  ⟨8, false,
  ["[INFO] Starting analysis task...",
   "[1/8] Loading data...",
   "[2/8] Preprocessing data...",
   "[3/8] Analyzing patterns...",
   "  → Found 42 patterns",
   "[4/8] Computing statistics...",
   "  → Mean: 123.45, Median: 118.20",
   "[5/8] Generating insights...",
   "  → Key insight: Trend is increasing by 15%",
   "[6/8] Validating results...",
   "[7/8] Preparing report...",
   "[8/8] Finalizing analysis...",
   "[SUCCESS] Analysis completed successfully!",
   "[RESULT] Overall score: 87.5/100"],
   List.replicate 9 false⟩

/-- Expected final state of an uninterrupted `task_process` run from `st0`. -/
def prFinal : St :=
  ⟨30, false,
  ["[INFO] Starting data processing task...",
   "[1/5] Processing data_001.csv...",
   "  • Reading... OK",
   "  • Parsing... OK",
   "  • Transforming... OK",
   "  • Validating... OK",
   "  • Writing... OK",
   "  ✓ data_001.csv processed successfully",
   "[2/5] Processing data_002.csv...",
   "  • Reading... OK",
   "  • Parsing... OK",
   "  • Transforming... OK",
   "  • Validating... OK",
   "  • Writing... OK",
   "  ✓ data_002.csv processed successfully",
   "[3/5] Processing data_003.csv...",
   "  • Reading... OK",
   "  • Parsing... OK",
   "  • Transforming... OK",
   "  • Validating... OK",
   "  • Writing... OK",
   "  ✓ data_003.csv processed successfully",
   "[4/5] Processing data_004.csv...",
   "  • Reading... OK",
   "  • Parsing... OK",
   "  • Transforming... OK",
   "  • Validating... OK",
   "  • Writing... OK",
   "  ✓ data_004.csv processed successfully",
   "[5/5] Processing data_005.csv...",
   "  • Reading... OK",
   "  • Parsing... OK",
   "  • Transforming... OK",
   "  • Validating... OK",
   "  • Writing... OK",
   "  ✓ data_005.csv processed successfully",
   "[SUCCESS] All files processed!",
   "[RESULT] Processed 5 files, 0 errors"],
   List.replicate 31 false⟩

/-!  ## Invariant machinery

`monoObs` states that the sequence of flag values observed at checkpoints
is monotone: once a checkpoint sees `true`, every later checkpoint sees
`true`.  `InvB` ties the observation log to the current flag: if some
checkpoint saw `true`, the flag is (still) `true`.  Both are preserved by
every operation of the program because the only write to the flag is
`handlerFire`, which sets it to `true`. -/

/-- Once an observation is `true`, all later ones are `true`. -/
def monoObs (l : List Bool) : Prop := l.Pairwise (fun a b => a = true → b = true)

instance (l : List Bool) : Decidable (monoObs l) := by
  unfold monoObs; infer_instance

/-- If some checkpoint observed `true`, the flag is currently `true`. -/
def InvB (s : St) : Prop := true ∈ s.obs → s.interrupted = true

/-- The run invariant. -/
def StInv (s : St) : Prop := monoObs s.obs ∧ InvB s

/-- State carried by a fallible result (the state at the raise, for
errors). -/
def resSt : ERes → St
  | .ok s => s
  | .error (_, s) => s

theorem inv_st0 : StInv st0 := ⟨List.Pairwise.nil, fun h => absurd h (List.not_mem_nil _)⟩

theorem inv_pr (x : String) (s : St) (h : StInv s) : StInv (pr x s) := h

theorem inv_prList (xs : List String) (s : St) (h : StInv s) : StInv (prList xs s) := h

theorem inv_record (s : St) (h : StInv s) : StInv (record s) := by
  rcases h with ⟨h1, h2⟩
  constructor
  · show (s.obs ++ [s.interrupted]).Pairwise _
    rw [List.pairwise_append]
    refine ⟨h1, List.pairwise_singleton _ _, fun a ha b hb => ?_⟩
    rw [List.mem_singleton] at hb
    subst hb
    intro haT
    subst haT
    exact h2 ha
  · intro hm
    rcases List.mem_append.mp hm with hm1 | hm2
    · exact h2 hm1
    · rw [List.mem_singleton] at hm2
      exact hm2.symm

theorem inv_checkFire (f : Nat → Bool) (s : St) (h : StInv s) : StInv (checkFire f s) := by
  rcases h with ⟨h1, h2⟩
  by_cases hf : f s.time
  · exact ⟨by simpa [monoObs, checkFire, handlerFire, hf] using h1,
      by simp [InvB, checkFire, handlerFire, hf]⟩
  · exact ⟨by simpa [monoObs, checkFire, hf] using h1,
      by simpa [InvB, checkFire, hf] using h2⟩

/-!  ## Checkpoint stop lemmas

When a checkpoint at the head of a loop iteration observes the flag set,
the loop returns at once: it performs no further step, prints no further
line, and only the observation itself is logged. -/

theorem countLoop_stop (f : Nat → Bool) (d : ℚ) (i : Nat) (rest : List Nat) (s : St)
    (h : s.interrupted = true) : countLoop f d (i :: rest) s = .ok (record s) := by
  simp [countLoop, record, h]

theorem analyzeLoop_stop (f : Nat → Bool) (d : ℚ) (p : Nat × String)
    (rest : List (Nat × String)) (s : St) (h : s.interrupted = true) :
    analyzeLoop f d (p :: rest) s = .ok (record s) := by
  rcases p with ⟨i, step⟩
  simp [analyzeLoop, record, h]

theorem subLoop_stop (f : Nat → Bool) (d : ℚ) (st : String) (rest : List String) (s : St)
    (h : s.interrupted = true) : subLoop f d (st :: rest) s = .ok (record s) := by
  simp [subLoop, record, h]

theorem procLoop_stop (f : Nat → Bool) (d : ℚ) (p : Nat × String)
    (rest : List (Nat × String)) (s : St) (h : s.interrupted = true) :
    procLoop f d (p :: rest) s = .ok (record s) := by
  rcases p with ⟨i, fn⟩
  simp [procLoop, record, h]

/-!  ## Invariant preservation through the loops and tasks -/

theorem countLoop_inv (f : Nat → Bool) (d : ℚ) :
    ∀ (l : List Nat) (s : St), StInv s → StInv (resSt (countLoop f d l s)) := by
  intro l
  induction l with
  | nil => intro s h; exact h
  | cons i rest ih =>
    intro s h
    have hr := inv_record s h
    by_cases hI : (record s).interrupted
    · rw [countLoop_stop f d i rest s hI]
      exact hr
    · simp only [countLoop, if_neg hI]
      by_cases hd : d < 0
      · simp only [sleep, if_pos hd]
        exact inv_pr _ _ hr
      · simp only [sleep, if_neg hd]
        exact ih _ (inv_checkFire f _ (inv_pr _ _ hr))

theorem analyzeLoop_inv (f : Nat → Bool) (d : ℚ) :
    ∀ (l : List (Nat × String)) (s : St), StInv s → StInv (resSt (analyzeLoop f d l s)) := by
  intro l
  induction l with
  | nil => intro s h; exact h
  | cons p rest ih =>
    rcases p with ⟨i, step⟩
    intro s h
    have hr := inv_record s h
    by_cases hI : (record s).interrupted
    · rw [analyzeLoop_stop f d ⟨i, step⟩ rest s hI]
      exact hr
    · simp only [analyzeLoop, if_neg hI]
      by_cases hd : d < 0
      · simp only [sleep, if_pos hd]
        exact inv_pr _ _ hr
      · simp only [sleep, if_neg hd]
        exact ih _ (inv_prList _ _ (inv_checkFire f _ (inv_pr _ _ hr)))

theorem subLoop_inv (f : Nat → Bool) (d : ℚ) :
    ∀ (l : List String) (s : St), StInv s → StInv (resSt (subLoop f d l s)) := by
  intro l
  induction l with
  | nil => intro s h; exact h
  | cons st rest ih =>
    intro s h
    have hr := inv_record s h
    by_cases hI : (record s).interrupted
    · rw [subLoop_stop f d st rest s hI]
      exact hr
    · simp only [subLoop, if_neg hI]
      by_cases hd : d * (1/5) < 0
      · simp only [sleep, if_pos hd]
        exact inv_pr _ _ hr
      · simp only [sleep, if_neg hd]
        exact ih _ (inv_checkFire f _ (inv_pr _ _ hr))

theorem procLoop_inv (f : Nat → Bool) (d : ℚ) :
    ∀ (l : List (Nat × String)) (s : St), StInv s → StInv (resSt (procLoop f d l s)) := by
  intro l
  induction l with
  | nil => intro s h; exact h
  | cons p rest ih =>
    rcases p with ⟨i, fn⟩
    intro s h
    have hr := inv_record s h
    by_cases hI : (record s).interrupted
    · rw [procLoop_stop f d ⟨i, fn⟩ rest s hI]
      exact hr
    · simp only [procLoop, if_neg hI]
      by_cases hd : d * (1/2) < 0
      · simp only [sleep, if_pos hd]
        exact inv_pr _ _ hr
      · simp only [sleep, if_neg hd]
        have h2 := inv_checkFire f _ (inv_pr (procLine i fn) _ hr)
        have h3 := subLoop_inv f d subStepNames _ h2
        rcases hsub : subLoop f d subStepNames (checkFire f (pr (procLine i fn) (record s))) with e | s3
        · rw [hsub] at h3
          exact h3
        · rw [hsub] at h3
          exact ih _ (inv_pr _ _ h3)

theorem task_count_inv (f : Nat → Bool) (d : ℚ) (s : St) (h : StInv s) :
    StInv (resSt (task_count f d s)) := by
  have h1 := countLoop_inv f d (List.range' 1 20) _ (inv_pr "[INFO] Starting counting task..." s h)
  unfold task_count
  rcases hc : countLoop f d (List.range' 1 20) (pr "[INFO] Starting counting task..." s) with e | s1
  · rw [hc] at h1
    exact h1
  · rw [hc] at h1
    exact inv_pr _ _ h1

theorem task_analyze_inv (f : Nat → Bool) (d : ℚ) (s : St) (h : StInv s) :
    StInv (resSt (task_analyze f d s)) := by
  have h1 := analyzeLoop_inv f d (enumerate1 analyzeSteps) _
    (inv_pr "[INFO] Starting analysis task..." s h)
  unfold task_analyze
  rcases hc : analyzeLoop f d (enumerate1 analyzeSteps)
      (pr "[INFO] Starting analysis task..." s) with e | s1
  · rw [hc] at h1
    exact h1
  · rw [hc] at h1
    have h2 := inv_record s1 h1
    by_cases hI : (record s1).interrupted
    · simp only [if_pos hI, resSt]
      exact h2
    · simp only [if_neg hI, resSt]
      exact inv_pr _ _ (inv_pr _ _ h2)

theorem task_process_inv (f : Nat → Bool) (d : ℚ) (s : St) (h : StInv s) :
    StInv (resSt (task_process f d s)) := by
  have h1 := procLoop_inv f d (enumerate1 processFiles) _
    (inv_pr "[INFO] Starting data processing task..." s h)
  unfold task_process
  rcases hc : procLoop f d (enumerate1 processFiles)
      (pr "[INFO] Starting data processing task..." s) with e | s1
  · rw [hc] at h1
    exact h1
  · rw [hc] at h1
    have h2 := inv_record s1 h1
    by_cases hI : (record s1).interrupted
    · simp only [if_pos hI, resSt]
      exact h2
    · simp only [if_neg hI, resSt]
      exact inv_pr _ _ (inv_pr _ _ h2)

theorem runTask_inv (f : Nat → Bool) (cfg : Config) (s : St) (h : StInv s) :
    StInv (resSt (runTask f cfg s)) := by
  unfold runTask
  by_cases h1 : cfg.task = "count"
  · simp only [if_pos h1]
    exact task_count_inv f cfg.delay s h
  · simp only [if_neg h1]
    by_cases h2 : cfg.task = "analyze"
    · simp only [if_pos h2]
      exact task_analyze_inv f cfg.delay s h
    · simp only [if_neg h2]
      by_cases h3 : cfg.task = "process"
      · simp only [if_pos h3]
        exact task_process_inv f cfg.delay s h
      · simp only [if_neg h3, resSt]
        exact h

/-!  ## Sign helpers and uninterrupted evaluation

With a quiet schedule and a non-negative delay, each loop runs to
completion and its effect on the state is a pure function of the input
list. -/

theorem mulc_neg_iff (d c : ℚ) (hc : 0 < c) : d * c < 0 ↔ d < 0 := by
  constructor
  · intro h
    by_contra hd
    push_neg at hd
    exact absurd h (not_lt.mpr (mul_nonneg hd hc.le))
  · intro h
    exact mul_neg_of_neg_of_pos h hc

theorem sleep_ok (f : Nat → Bool) (d : ℚ) (s : St) (hf : ∀ n, f n = false)
    (hd : ¬ d < 0) : sleep f d s = .ok { s with time := s.time + 1 } := by
  simp [sleep, hd, checkFire, hf]

theorem countLoop_eval (f : Nat → Bool) (d : ℚ) (hf : ∀ n, f n = false) (hd : ¬ d < 0) :
    ∀ (l : List Nat) (s : St), s.interrupted = false →
      countLoop f d l s = .ok ⟨s.time + l.length, false,
        s.out ++ l.map countLine, s.obs ++ List.replicate l.length false⟩ := by
  intro l
  induction l with
  | nil => intro s hs; simp [countLoop, ← hs]
  | cons i rest ih =>
    intro s hs
    have hI : ¬ (record s).interrupted = true := by simp [record, hs]
    simp only [countLoop, if_neg hI]
    rw [sleep_ok f d _ hf hd]
    show countLoop f d rest _ = _
    rw [ih _ (by simp [record, pr, hs])]
    simp [record, pr, hs, List.replicate_succ]
    omega

theorem analyzeLoop_eval (f : Nat → Bool) (d : ℚ) (hf : ∀ n, f n = false) (hd : ¬ d < 0) :
    ∀ (l : List (Nat × String)) (s : St), s.interrupted = false →
      analyzeLoop f d l s = .ok ⟨s.time + l.length, false,
        s.out ++ (l.map (fun p =>
          stepLine p.1 analyzeSteps.length p.2 :: insightLines p.1)).flatten,
        s.obs ++ List.replicate l.length false⟩ := by
  intro l
  induction l with
  | nil => intro s hs; simp [analyzeLoop, ← hs]
  | cons p rest ih =>
    rcases p with ⟨i, step⟩
    intro s hs
    have hI : ¬ (record s).interrupted = true := by simp [record, hs]
    simp only [analyzeLoop, if_neg hI]
    rw [sleep_ok f d _ hf hd]
    show analyzeLoop f d rest _ = _
    rw [ih _ (by simp [record, pr, prList, hs])]
    simp [record, pr, prList, hs, List.replicate_succ]
    omega

theorem subLoop_eval (f : Nat → Bool) (d : ℚ) (hf : ∀ n, f n = false) (hd : ¬ d < 0) :
    ∀ (l : List String) (s : St), s.interrupted = false →
      subLoop f d l s = .ok ⟨s.time + l.length, false,
        s.out ++ l.map (fun st => "  • " ++ st ++ "... OK"),
        s.obs ++ List.replicate l.length false⟩ := by
  intro l
  have hd5 : ¬ d * (1/5) < 0 := by
    rw [mulc_neg_iff d (1/5) (by norm_num)]
    exact hd
  induction l with
  | nil => intro s hs; simp [subLoop, ← hs]
  | cons st rest ih =>
    intro s hs
    have hI : ¬ (record s).interrupted = true := by simp [record, hs]
    simp only [subLoop, if_neg hI]
    rw [sleep_ok f _ _ hf hd5]
    show subLoop f d rest _ = _
    rw [ih _ (by simp [record, pr, hs])]
    simp [record, pr, hs, List.replicate_succ]
    omega

theorem procLoop_eval (f : Nat → Bool) (d : ℚ) (hf : ∀ n, f n = false) (hd : ¬ d < 0) :
    ∀ (l : List (Nat × String)) (s : St), s.interrupted = false →
      procLoop f d l s = .ok ⟨s.time + l.length * 6, false,
        s.out ++ (l.map (fun p =>
          procLine p.1 p.2 :: (subStepNames.map (fun st => "  • " ++ st ++ "... OK") ++
            ["  ✓ " ++ p.2 ++ " processed successfully"]))).flatten,
        s.obs ++ List.replicate (l.length * 6) false⟩ := by
  intro l
  have hd2 : ¬ d * (1/2) < 0 := by
    rw [mulc_neg_iff d (1/2) (by norm_num)]
    exact hd
  induction l with
  | nil => intro s hs; simp [procLoop, ← hs]
  | cons p rest ih =>
    rcases p with ⟨i, fn⟩
    intro s hs
    have hI : ¬ (record s).interrupted = true := by simp [record, hs]
    simp only [procLoop, if_neg hI]
    rw [sleep_ok f _ _ hf hd2]
    show (match subLoop f d subStepNames _ with
      | Except.error e => Except.error e
      | Except.ok s3 => procLoop f d rest (pr ("  ✓ " ++ fn ++ " processed successfully") s3)) = _
    rw [subLoop_eval f d hf hd subStepNames _ (by simp [record, pr, hs])]
    show procLoop f d rest _ = _
    rw [ih _ (by simp [record, pr, hs])]
    simp [record, pr, hs, List.replicate_succ, subStepNames]
    refine ⟨by omega, ?_⟩
    rw [show (rest.length + 1) * 6 = 6 + rest.length * 6 by omega]
    simp [List.replicate_add, List.replicate_succ]

theorem task_count_eval (f : Nat → Bool) (d : ℚ) (s : St) (hf : ∀ n, f n = false)
    (hd : ¬ d < 0) (hs : s.interrupted = false) :
    task_count f d s = .ok ⟨s.time + 20, false,
      s.out ++ ("[INFO] Starting counting task..." :: (List.range' 1 20).map countLine ++
        ["[SUCCESS] Counting task completed!"]),
      s.obs ++ List.replicate 20 false⟩ := by
  unfold task_count
  rw [countLoop_eval f d hf hd _ _ (by simp [pr, hs])]
  simp [pr, List.append_assoc]

theorem task_analyze_eval (f : Nat → Bool) (d : ℚ) (s : St) (hf : ∀ n, f n = false)
    (hd : ¬ d < 0) (hs : s.interrupted = false) :
    task_analyze f d s = .ok ⟨s.time + 8, false,
      s.out ++ ("[INFO] Starting analysis task..." ::
        ((enumerate1 analyzeSteps).map (fun p =>
          stepLine p.1 analyzeSteps.length p.2 :: insightLines p.1)).flatten ++
        ["[SUCCESS] Analysis completed successfully!", "[RESULT] Overall score: 87.5/100"]),
      s.obs ++ List.replicate 9 false⟩ := by
  have hlen : (enumerate1 analyzeSteps).length = 8 := by decide
  unfold task_analyze
  rw [analyzeLoop_eval f d hf hd _ _ (by simp [pr, hs])]
  show (let s1 := record _; if s1.interrupted = true then Except.ok s1 else _) = _
  simp [record, pr, hlen, List.append_assoc, List.replicate_succ]

theorem task_process_eval (f : Nat → Bool) (d : ℚ) (s : St) (hf : ∀ n, f n = false)
    (hd : ¬ d < 0) (hs : s.interrupted = false) :
    task_process f d s = .ok ⟨s.time + 30, false,
      s.out ++ ("[INFO] Starting data processing task..." ::
        ((enumerate1 processFiles).map (fun p =>
          procLine p.1 p.2 :: (subStepNames.map (fun st => "  • " ++ st ++ "... OK") ++
            ["  ✓ " ++ p.2 ++ " processed successfully"]))).flatten ++
        ["[SUCCESS] All files processed!",
         "[RESULT] Processed " ++ toString processFiles.length ++ " files, 0 errors"]),
      s.obs ++ List.replicate 31 false⟩ := by
  have hlen : (enumerate1 processFiles).length = 5 := by decide
  unfold task_process
  rw [procLoop_eval f d hf hd _ _ (by simp [pr, hs])]
  show (let s1 := record _; if s1.interrupted = true then Except.ok s1 else _) = _
  simp [record, pr, hlen, List.append_assoc, List.replicate_succ]

/-- Signal delivery never changes the observation log. -/
theorem obs_checkFire (f : Nat → Bool) (s : St) : (checkFire f s).obs = s.obs := by
  by_cases hf : f s.time <;> simp [checkFire, handlerFire, hf]

/-!  ## The error path

`time.sleep` can only raise before any checkpoint has observed the flag
set: once a checkpoint sees `true` the loop stops and no further sleep
runs.  Hence an error result carries an observation log without `true`
entries (given a clean entry log). -/

theorem countLoop_err (f : Nat → Bool) (d : ℚ) :
    ∀ (l : List Nat) (s : St) (e : String × St),
      countLoop f d l s = .error e → true ∈ e.2.obs → true ∈ s.obs := by
  intro l
  induction l with
  | nil => intro s e h; simp [countLoop] at h
  | cons i rest ih =>
    intro s e h hm
    by_cases hI : (record s).interrupted
    · rw [countLoop_stop f d i rest s hI] at h
      simp at h
    · simp only [countLoop, if_neg hI] at h
      by_cases hd : d < 0
      · simp only [sleep, if_pos hd] at h
        cases h
        have hs : s.interrupted = false := by simpa [record] using hI
        simp only [pr, record, hs] at hm
        simpa using hm
      · simp only [sleep, if_neg hd] at h
        have h2 := ih _ _ h hm
        have hs : s.interrupted = false := by simpa [record] using hI
        simp only [checkFire, handlerFire, pr, record, hs, apply_ite] at h2
        simpa [apply_ite] using h2

theorem analyzeLoop_err (f : Nat → Bool) (d : ℚ) :
    ∀ (l : List (Nat × String)) (s : St) (e : String × St),
      analyzeLoop f d l s = .error e → true ∈ e.2.obs → true ∈ s.obs := by
  intro l
  induction l with
  | nil => intro s e h; simp [analyzeLoop] at h
  | cons p rest ih =>
    rcases p with ⟨i, step⟩
    intro s e h hm
    by_cases hI : (record s).interrupted
    · rw [analyzeLoop_stop f d ⟨i, step⟩ rest s hI] at h
      simp at h
    · simp only [analyzeLoop, if_neg hI] at h
      by_cases hd : d < 0
      · simp only [sleep, if_pos hd] at h
        cases h
        have hs : s.interrupted = false := by simpa [record] using hI
        simp only [pr, record, hs] at hm
        simpa using hm
      · simp only [sleep, if_neg hd] at h
        have h2 := ih _ _ h hm
        have hs : s.interrupted = false := by simpa [record] using hI
        have h3 : true ∈ (pr (stepLine i analyzeSteps.length step) (record s)).obs := by
          rw [← obs_checkFire f (pr (stepLine i analyzeSteps.length step) (record s))]
          exact h2
        simp only [pr, record, hs] at h3
        simpa using h3

theorem subLoop_err (f : Nat → Bool) (d : ℚ) :
    ∀ (l : List String) (s : St) (e : String × St),
      subLoop f d l s = .error e → true ∈ e.2.obs → true ∈ s.obs := by
  intro l
  induction l with
  | nil => intro s e h; simp [subLoop] at h
  | cons st rest ih =>
    intro s e h hm
    by_cases hI : (record s).interrupted
    · rw [subLoop_stop f d st rest s hI] at h
      simp at h
    · simp only [subLoop, if_neg hI] at h
      by_cases hd : d * (1/5) < 0
      · simp only [sleep, if_pos hd] at h
        cases h
        have hs : s.interrupted = false := by simpa [record] using hI
        simp only [pr, record, hs] at hm
        simpa using hm
      · simp only [sleep, if_neg hd] at h
        have h2 := ih _ _ h hm
        have hs : s.interrupted = false := by simpa [record] using hI
        simp only [checkFire, handlerFire, pr, record, hs, apply_ite] at h2
        simpa [apply_ite] using h2

theorem procLoop_err (f : Nat → Bool) (d : ℚ) :
    ∀ (l : List (Nat × String)) (s : St) (e : String × St), StInv s →
      procLoop f d l s = .error e → true ∈ e.2.obs → true ∈ s.obs := by
  intro l
  induction l with
  | nil => intro s e _ h; simp [procLoop] at h
  | cons p rest ih =>
    rcases p with ⟨i, fn⟩
    intro s e hInv h hm
    by_cases hI : (record s).interrupted
    · rw [procLoop_stop f d ⟨i, fn⟩ rest s hI] at h
      simp at h
    · simp only [procLoop, if_neg hI] at h
      have hs : s.interrupted = false := by simpa [record] using hI
      by_cases hd : d * (1/2) < 0
      · simp only [sleep, if_pos hd] at h
        cases h
        simp only [pr, record, hs] at hm
        simpa using hm
      · simp only [sleep, if_neg hd] at h
        have hInv2 : StInv (checkFire f (pr (procLine i fn) (record s))) :=
          inv_checkFire f _ (inv_pr _ _ (inv_record s hInv))
        rcases hsub : subLoop f d subStepNames (checkFire f (pr (procLine i fn) (record s)))
            with e2 | s3
        · rw [hsub] at h
          simp only at h
          cases h
          have h2 := subLoop_err f d subStepNames _ _ hsub hm
          simp only [checkFire, handlerFire, pr, record, hs, apply_ite] at h2
          simpa [apply_ite] using h2
        · rw [hsub] at h
          simp only at h
          have hInv3 : StInv s3 := by
            have := subLoop_inv f d subStepNames _ hInv2
            rwa [hsub] at this
          by_cases hs3 : s3.interrupted
          · rcases rest with _ | ⟨q, rest'⟩
            · simp [procLoop] at h
            · rw [procLoop_stop f d q rest' _ (by simpa [pr] using hs3)] at h
              simp at h
          · have h2 := ih _ _ (inv_pr _ _ hInv3) h hm
            have h3 : true ∈ s3.obs := by simpa [pr] using h2
            exact absurd (hInv3.2 h3) hs3

theorem task_count_err (f : Nat → Bool) (d : ℚ) (s : St) (e : String × St)
    (h : task_count f d s = .error e) : true ∈ e.2.obs → true ∈ s.obs := by
  intro hm
  unfold task_count at h
  rcases hc : countLoop f d (List.range' 1 20) (pr "[INFO] Starting counting task..." s)
      with e1 | s1
  · rw [hc] at h
    simp only at h
    cases h
    have := countLoop_err f d _ _ _ hc hm
    simpa [pr] using this
  · rw [hc] at h
    simp at h

theorem task_analyze_err (f : Nat → Bool) (d : ℚ) (s : St) (e : String × St)
    (h : task_analyze f d s = .error e) : true ∈ e.2.obs → true ∈ s.obs := by
  intro hm
  unfold task_analyze at h
  rcases hc : analyzeLoop f d (enumerate1 analyzeSteps)
      (pr "[INFO] Starting analysis task..." s) with e1 | s1
  · rw [hc] at h
    simp only at h
    cases h
    have := analyzeLoop_err f d _ _ _ hc hm
    simpa [pr] using this
  · rw [hc] at h
    simp only at h
    by_cases hI : (record s1).interrupted
    · simp [if_pos hI] at h
    · simp [if_neg hI] at h

theorem task_process_err (f : Nat → Bool) (d : ℚ) (s : St) (e : String × St)
    (hInv : StInv s) (h : task_process f d s = .error e) : true ∈ e.2.obs → true ∈ s.obs := by
  intro hm
  unfold task_process at h
  rcases hc : procLoop f d (enumerate1 processFiles)
      (pr "[INFO] Starting data processing task..." s) with e1 | s1
  · rw [hc] at h
    simp only at h
    cases h
    have := procLoop_err f d _ _ _ (inv_pr _ _ hInv) hc hm
    simpa [pr] using this
  · rw [hc] at h
    simp only at h
    by_cases hI : (record s1).interrupted
    · simp [if_pos hI] at h
    · simp [if_neg hI] at h

theorem runTask_err (f : Nat → Bool) (cfg : Config) (s : St) (e : String × St)
    (hInv : StInv s) (h : runTask f cfg s = .error e) : true ∈ e.2.obs → true ∈ s.obs := by
  unfold runTask at h
  by_cases h1 : cfg.task = "count"
  · rw [if_pos h1] at h
    exact task_count_err f cfg.delay s e h
  · rw [if_neg h1] at h
    by_cases h2 : cfg.task = "analyze"
    · rw [if_pos h2] at h
      exact task_analyze_err f cfg.delay s e h
    · rw [if_neg h2] at h
      by_cases h3 : cfg.task = "process"
      · rw [if_pos h3] at h
        exact task_process_err f cfg.delay s e hInv h
      · rw [if_neg h3] at h
        simp at h

/-!  ## The exit policy (`finish`) -/

theorem finish_ok_true (s : St) (h : s.interrupted = true) :
    finish (.ok s) = ⟨s.out ++ ["\n[WARNING] Task was interrupted!"], [], 1,
      s.obs ++ [true]⟩ := by
  simp [finish, record, h]

theorem finish_ok_false (s : St) (h : s.interrupted = false) :
    finish (.ok s) = ⟨s.out ++ ["\n[INFO] Agent finished successfully"], [], 0,
      s.obs ++ [false]⟩ := by
  simp [finish, record, h]

/-!  ## Determinism: the run does not depend on which quiet schedule drives it -/

theorem checkFire_congr (f1 f2 : Nat → Bool) (hf1 : ∀ n, f1 n = false)
    (hf2 : ∀ n, f2 n = false) (s : St) : checkFire f1 s = checkFire f2 s := by
  simp [checkFire, hf1, hf2]

theorem sleep_congr (f1 f2 : Nat → Bool) (d : ℚ) (hf1 : ∀ n, f1 n = false)
    (hf2 : ∀ n, f2 n = false) (s : St) : sleep f1 d s = sleep f2 d s := by
  by_cases hd : d < 0
  · simp [sleep, hd]
  · simp only [sleep, if_neg hd, checkFire_congr f1 f2 hf1 hf2]

theorem countLoop_congr (f1 f2 : Nat → Bool) (d : ℚ) (hf1 : ∀ n, f1 n = false)
    (hf2 : ∀ n, f2 n = false) :
    ∀ (l : List Nat) (s : St), countLoop f1 d l s = countLoop f2 d l s := by
  intro l
  induction l with
  | nil => intro s; rfl
  | cons i rest ih =>
    intro s
    simp only [countLoop]
    by_cases hI : (record s).interrupted
    · simp [if_pos hI]
    · simp only [if_neg hI]
      rw [sleep_congr f1 f2 d hf1 hf2]
      rcases sleep f2 d (pr (countLine i) (record s)) with e | s2
      · rfl
      · exact ih s2

theorem analyzeLoop_congr (f1 f2 : Nat → Bool) (d : ℚ) (hf1 : ∀ n, f1 n = false)
    (hf2 : ∀ n, f2 n = false) :
    ∀ (l : List (Nat × String)) (s : St), analyzeLoop f1 d l s = analyzeLoop f2 d l s := by
  intro l
  induction l with
  | nil => intro s; rfl
  | cons p rest ih =>
    rcases p with ⟨i, step⟩
    intro s
    simp only [analyzeLoop]
    by_cases hI : (record s).interrupted
    · simp [if_pos hI]
    · simp only [if_neg hI]
      rw [sleep_congr f1 f2 d hf1 hf2]
      rcases sleep f2 d (pr (stepLine i analyzeSteps.length step) (record s)) with e | s2
      · rfl
      · exact ih _

theorem subLoop_congr (f1 f2 : Nat → Bool) (d : ℚ) (hf1 : ∀ n, f1 n = false)
    (hf2 : ∀ n, f2 n = false) :
    ∀ (l : List String) (s : St), subLoop f1 d l s = subLoop f2 d l s := by
  intro l
  induction l with
  | nil => intro s; rfl
  | cons st rest ih =>
    intro s
    simp only [subLoop]
    by_cases hI : (record s).interrupted
    · simp [if_pos hI]
    · simp only [if_neg hI]
      rw [sleep_congr f1 f2 _ hf1 hf2]
      rcases sleep f2 (d * (1/5)) (pr ("  • " ++ st ++ "... OK") (record s)) with e | s2
      · rfl
      · exact ih s2

theorem procLoop_congr (f1 f2 : Nat → Bool) (d : ℚ) (hf1 : ∀ n, f1 n = false)
    (hf2 : ∀ n, f2 n = false) :
    ∀ (l : List (Nat × String)) (s : St), procLoop f1 d l s = procLoop f2 d l s := by
  intro l
  induction l with
  | nil => intro s; rfl
  | cons p rest ih =>
    rcases p with ⟨i, fn⟩
    intro s
    simp only [procLoop]
    by_cases hI : (record s).interrupted
    · simp [if_pos hI]
    · simp only [if_neg hI]
      rw [sleep_congr f1 f2 _ hf1 hf2]
      rcases sleep f2 (d * (1/2)) (pr (procLine i fn) (record s)) with e | s2
      · rfl
      · dsimp only
        rw [subLoop_congr f1 f2 d hf1 hf2 subStepNames s2]
        rcases subLoop f2 d subStepNames s2 with e2 | s3
        · rfl
        · exact ih _

theorem task_count_congr (f1 f2 : Nat → Bool) (d : ℚ) (hf1 : ∀ n, f1 n = false)
    (hf2 : ∀ n, f2 n = false) (s : St) : task_count f1 d s = task_count f2 d s := by
  unfold task_count
  rw [countLoop_congr f1 f2 d hf1 hf2]

theorem task_analyze_congr (f1 f2 : Nat → Bool) (d : ℚ) (hf1 : ∀ n, f1 n = false)
    (hf2 : ∀ n, f2 n = false) (s : St) : task_analyze f1 d s = task_analyze f2 d s := by
  unfold task_analyze
  rw [analyzeLoop_congr f1 f2 d hf1 hf2]

theorem task_process_congr (f1 f2 : Nat → Bool) (d : ℚ) (hf1 : ∀ n, f1 n = false)
    (hf2 : ∀ n, f2 n = false) (s : St) : task_process f1 d s = task_process f2 d s := by
  unfold task_process
  rw [procLoop_congr f1 f2 d hf1 hf2]

theorem runTask_congr (f1 f2 : Nat → Bool) (cfg : Config) (hf1 : ∀ n, f1 n = false)
    (hf2 : ∀ n, f2 n = false) (s : St) : runTask f1 cfg s = runTask f2 cfg s := by
  unfold runTask
  rw [task_count_congr f1 f2 _ hf1 hf2, task_analyze_congr f1 f2 _ hf1 hf2,
    task_process_congr f1 f2 _ hf1 hf2]

theorem mainRun_congr (f1 f2 : Nat → Bool) (t : String) (d : ℚ) (hf1 : ∀ n, f1 n = false)
    (hf2 : ∀ n, f2 n = false) : mainRun f1 t d = mainRun f2 t d := by
  unfold mainRun
  rcases parseArgs t d with c | cfg
  · rfl
  · dsimp only
    rw [checkFire_congr f1 f2 hf1 hf2, runTask_congr f1 f2 cfg hf1 hf2]

/-!  ## Main-run composite lemmas -/

/-- The state on entry to the selected task function. -/
theorem mainRun_start (f : Nat → Bool) (t : String) (d : ℚ) (hf : ∀ n, f n = false) :
    prList (bannerOut t d) (checkFire f st0) = ⟨1, false, bannerOut t d, []⟩ := by
  simp [prList, checkFire, st0, hf]

theorem mainRun_interrupted_exit (f : Nat → Bool) (t : String) (d : ℚ)
    (hm : true ∈ (mainRun f t d).obs) :
    (mainRun f t d).exitCode = 1 ∧
      (mainRun f t d).stdout.getLast? = some "\n[WARNING] Task was interrupted!" := by
  unfold mainRun at hm ⊢
  rcases hp : parseArgs t d with c | cfg
  · rw [hp] at hm
    simp at hm
  · rw [hp] at hm
    dsimp only at hm ⊢
    have hInv : StInv (prList (bannerOut cfg.task cfg.delay) (checkFire f st0)) :=
      inv_prList _ _ (inv_checkFire f st0 inv_st0)
    have hobs : (prList (bannerOut cfg.task cfg.delay) (checkFire f st0)).obs = [] := by
      rw [show (prList (bannerOut cfg.task cfg.delay) (checkFire f st0)).obs
          = (checkFire f st0).obs from rfl, obs_checkFire]
      rfl
    rcases hr : runTask f cfg (prList (bannerOut cfg.task cfg.delay) (checkFire f st0))
        with e | s1
    · rw [hr] at hm
      simp only [finish] at hm
      have := runTask_err f cfg _ _ hInv hr hm
      rw [hobs] at this
      simp at this
    · rw [hr] at hm
      have hInv1 : StInv s1 := by
        have := runTask_inv f cfg _ hInv
        rwa [hr] at this
      by_cases hs1 : s1.interrupted
      · rw [finish_ok_true s1 hs1]
        simp
      · rw [finish_ok_false s1 (by simpa using hs1)] at hm
        simp only at hm
        have h2 : true ∈ s1.obs := by
          rcases List.mem_append.mp hm with h | h
          · exact h
          · simp at h
        exact absurd (hInv1.2 h2) hs1

/-!  ## What the loops can print

Any line present after a loop ran was either already there or is one of
the lines the loop's body can emit (a step line, an insight line, the
signal-handler line).  Stated with a predicate `P` singling out a line
the loop cannot produce. -/

theorem out_checkFire (f : Nat → Bool) (s : St) :
    ∀ x, x ∈ (checkFire f s).out → x ∈ s.out ∨ x = sigLine := by
  intro x hx
  by_cases hf : f s.time
  · simp only [checkFire, handlerFire, hf, if_true] at hx
    simpa using hx
  · simp only [checkFire, hf, if_false] at hx
    exact Or.inl hx

theorem analyzeLoop_out_mem (f : Nat → Bool) (d : ℚ) (P : String → Prop)
    (hsig : ¬ P sigLine) :
    ∀ (l : List (Nat × String)) (s s' : St),
      (∀ p ∈ l, ¬ P (stepLine p.1 analyzeSteps.length p.2) ∧ ∀ y ∈ insightLines p.1, ¬ P y) →
      analyzeLoop f d l s = .ok s' → ∀ x ∈ s'.out, P x → x ∈ s.out := by
  intro l
  induction l with
  | nil =>
    intro s s' _ h x hx _
    simp only [analyzeLoop] at h
    cases h
    exact hx
  | cons p rest ih =>
    rcases p with ⟨i, step⟩
    intro s s' hl h x hx hP
    by_cases hI : (record s).interrupted
    · rw [analyzeLoop_stop f d ⟨i, step⟩ rest s hI] at h
      cases h
      exact hx
    · simp only [analyzeLoop, if_neg hI] at h
      by_cases hd : d < 0
      · simp only [sleep, if_pos hd] at h
        cases h
      · simp only [sleep, if_neg hd] at h
        have h2 := ih _ _ (fun q hq => hl q (List.mem_cons_of_mem _ hq)) h x hx hP
        simp only [prList, List.mem_append] at h2
        rcases h2 with h2 | h2
        · rcases out_checkFire f _ _ h2 with h3 | h3
          · simp only [pr, record, List.mem_append] at h3
            rcases h3 with h3 | h3
            · exact h3
            · rw [List.mem_singleton] at h3
              subst h3
              exact absurd hP (hl ⟨i, step⟩ (List.mem_cons_self _ _)).1
          · subst h3
            exact absurd hP hsig
        · exact absurd hP ((hl ⟨i, step⟩ (List.mem_cons_self _ _)).2 x h2)

theorem subLoop_out_mem (f : Nat → Bool) (d : ℚ) (P : String → Prop)
    (hsig : ¬ P sigLine) :
    ∀ (l : List String) (s s' : St),
      (∀ st ∈ l, ¬ P ("  • " ++ st ++ "... OK")) →
      subLoop f d l s = .ok s' → ∀ x ∈ s'.out, P x → x ∈ s.out := by
  intro l
  induction l with
  | nil =>
    intro s s' _ h x hx _
    simp only [subLoop] at h
    cases h
    exact hx
  | cons st rest ih =>
    intro s s' hl h x hx hP
    by_cases hI : (record s).interrupted
    · rw [subLoop_stop f d st rest s hI] at h
      cases h
      exact hx
    · simp only [subLoop, if_neg hI] at h
      by_cases hd : d * (1/5) < 0
      · simp only [sleep, if_pos hd] at h
        cases h
      · simp only [sleep, if_neg hd] at h
        have h2 := ih _ _ (fun q hq => hl q (List.mem_cons_of_mem _ hq)) h x hx hP
        rcases out_checkFire f _ _ h2 with h3 | h3
        · simp only [pr, record, List.mem_append] at h3
          rcases h3 with h3 | h3
          · exact h3
          · rw [List.mem_singleton] at h3
            subst h3
            exact absurd hP (hl st (List.mem_cons_self _ _))
        · subst h3
          exact absurd hP hsig

theorem procLoop_out_mem (f : Nat → Bool) (d : ℚ) (P : String → Prop)
    (hsig : ¬ P sigLine) (hsub : ∀ st ∈ subStepNames, ¬ P ("  • " ++ st ++ "... OK")) :
    ∀ (l : List (Nat × String)) (s s' : St),
      (∀ p ∈ l, ¬ P (procLine p.1 p.2) ∧ ¬ P ("  ✓ " ++ p.2 ++ " processed successfully")) →
      procLoop f d l s = .ok s' → ∀ x ∈ s'.out, P x → x ∈ s.out := by
  intro l
  induction l with
  | nil =>
    intro s s' _ h x hx _
    simp only [procLoop] at h
    cases h
    exact hx
  | cons p rest ih =>
    rcases p with ⟨i, fn⟩
    intro s s' hl h x hx hP
    by_cases hI : (record s).interrupted
    · rw [procLoop_stop f d ⟨i, fn⟩ rest s hI] at h
      cases h
      exact hx
    · simp only [procLoop, if_neg hI] at h
      by_cases hd : d * (1/2) < 0
      · simp only [sleep, if_pos hd] at h
        cases h
      · simp only [sleep, if_neg hd] at h
        rcases hsubr : subLoop f d subStepNames (checkFire f (pr (procLine i fn) (record s)))
            with e2 | s3
        · rw [hsubr] at h
          cases h
        · rw [hsubr] at h
          dsimp only at h
          have h2 := ih _ _ (fun q hq => hl q (List.mem_cons_of_mem _ hq)) h x hx hP
          simp only [pr, List.mem_append] at h2
          rcases h2 with h2 | h2
          · have h3 := subLoop_out_mem f d P hsig subStepNames _ _ hsub hsubr x h2 hP
            rcases out_checkFire f _ _ h3 with h4 | h4
            · simp only [pr, record, List.mem_append] at h4
              rcases h4 with h4 | h4
              · exact h4
              · rw [List.mem_singleton] at h4
                subst h4
                exact absurd hP (hl ⟨i, fn⟩ (List.mem_cons_self _ _)).1
            · subst h4
              exact absurd hP hsig
          · rw [List.mem_singleton] at h2
            subst h2
            exact absurd hP (hl ⟨i, fn⟩ (List.mem_cons_self _ _)).2

/-!  ## Whole-run evaluation for quiet schedules -/

theorem mainRun_count_eval (f : Nat → Bool) (d : ℚ) (hf : ∀ n, f n = false)
    (hd : ¬ d < 0) :
    mainRun f "count" d = ⟨bannerOut "count" d ++
      ("[INFO] Starting counting task..." :: (List.range' 1 20).map countLine ++
        ["[SUCCESS] Counting task completed!"]) ++ ["\n[INFO] Agent finished successfully"],
      [], 0, List.replicate 20 false ++ [false]⟩ := by
  unfold mainRun
  rw [show parseArgs "count" d = Except.ok ⟨"count", d⟩ from by simp [parseArgs, validTasks]]
  dsimp only
  rw [mainRun_start f "count" d hf,
    show runTask f ⟨"count", d⟩ ⟨1, false, bannerOut "count" d, []⟩
      = task_count f d ⟨1, false, bannerOut "count" d, []⟩ from by simp [runTask],
    task_count_eval f d _ hf hd rfl, finish_ok_false _ rfl]
  simp

theorem mainRun_analyze_eval (f : Nat → Bool) (d : ℚ) (hf : ∀ n, f n = false)
    (hd : ¬ d < 0) :
    mainRun f "analyze" d = ⟨bannerOut "analyze" d ++
      ("[INFO] Starting analysis task..." ::
        ((enumerate1 analyzeSteps).map (fun p =>
          stepLine p.1 analyzeSteps.length p.2 :: insightLines p.1)).flatten ++
        ["[SUCCESS] Analysis completed successfully!", "[RESULT] Overall score: 87.5/100"]) ++
      ["\n[INFO] Agent finished successfully"],
      [], 0, List.replicate 9 false ++ [false]⟩ := by
  unfold mainRun
  rw [show parseArgs "analyze" d = Except.ok ⟨"analyze", d⟩ from by simp [parseArgs, validTasks]]
  dsimp only
  rw [mainRun_start f "analyze" d hf,
    show runTask f ⟨"analyze", d⟩ ⟨1, false, bannerOut "analyze" d, []⟩
      = task_analyze f d ⟨1, false, bannerOut "analyze" d, []⟩ from by simp [runTask],
    task_analyze_eval f d _ hf hd rfl, finish_ok_false _ rfl]
  simp

theorem mainRun_process_eval (f : Nat → Bool) (d : ℚ) (hf : ∀ n, f n = false)
    (hd : ¬ d < 0) :
    mainRun f "process" d = ⟨bannerOut "process" d ++
      ("[INFO] Starting data processing task..." ::
        ((enumerate1 processFiles).map (fun p =>
          procLine p.1 p.2 :: (subStepNames.map (fun st => "  • " ++ st ++ "... OK") ++
            ["  ✓ " ++ p.2 ++ " processed successfully"]))).flatten ++
        ["[SUCCESS] All files processed!",
         "[RESULT] Processed " ++ toString processFiles.length ++ " files, 0 errors"]) ++
      ["\n[INFO] Agent finished successfully"],
      [], 0, List.replicate 31 false ++ [false]⟩ := by
  unfold mainRun
  rw [show parseArgs "process" d = Except.ok ⟨"process", d⟩ from by simp [parseArgs, validTasks]]
  dsimp only
  rw [mainRun_start f "process" d hf,
    show runTask f ⟨"process", d⟩ ⟨1, false, bannerOut "process" d, []⟩
      = task_process f d ⟨1, false, bannerOut "process" d, []⟩ from by simp [runTask],
    task_process_eval f d _ hf hd rfl, finish_ok_false _ rfl]
  simp

/-!  ## Claims -/

/-- C4: a run of the count task in which the interrupt flag is never set
(with a non-negative delay, per the data model) prints exactly the twenty
lines `Count: 1/20` through `Count: 20/20`, in increasing order, as its
step lines. -/
theorem count_prints_twenty_lines (f : Nat → Bool) (d : ℚ)
    (hf : ∀ n, f n = false) (hd : 0 ≤ d) :
    task_count f d st0 = .ok cntFinal ∧
    cntFinal.out.filter (fun x => strStarts "Count: " x) =
      ["Count: 1/20", "Count: 2/20", "Count: 3/20", "Count: 4/20", "Count: 5/20",
       "Count: 6/20", "Count: 7/20", "Count: 8/20", "Count: 9/20", "Count: 10/20",
       "Count: 11/20", "Count: 12/20", "Count: 13/20", "Count: 14/20", "Count: 15/20",
       "Count: 16/20", "Count: 17/20", "Count: 18/20", "Count: 19/20", "Count: 20/20"] := by
  refine ⟨?_, by decide⟩
  rw [task_count_eval f d st0 hf (not_lt.mpr hd) rfl]
  decide

/-- C4 witness: the quiet schedule with delay 0. -/
theorem count_prints_twenty_lines_witness : task_count cF 0 st0 = .ok cntFinal :=
  (count_prints_twenty_lines cF 0 (fun _ => rfl) le_rfl).1

/-- C5: a run of the analyze task in which the interrupt flag is never set
prints exactly 8 numbered step lines in order, with one synthetic insight
line immediately after each of steps 3, 4 and 5, followed by the final
score line `[RESULT] Overall score: 87.5/100`. -/
theorem analyze_prints_steps_insights_score (f : Nat → Bool) (d : ℚ)
    (hf : ∀ n, f n = false) (hd : 0 ≤ d) :
    task_analyze f d st0 = .ok anFinal ∧
    anFinal.out =
      ["[INFO] Starting analysis task...",
       "[1/8] Loading data...", "[2/8] Preprocessing data...", "[3/8] Analyzing patterns...",
       "  → Found 42 patterns", "[4/8] Computing statistics...",
       "  → Mean: 123.45, Median: 118.20", "[5/8] Generating insights...",
       "  → Key insight: Trend is increasing by 15%", "[6/8] Validating results...",
       "[7/8] Preparing report...", "[8/8] Finalizing analysis...",
       "[SUCCESS] Analysis completed successfully!", "[RESULT] Overall score: 87.5/100"] := by
  refine ⟨?_, by decide⟩
  rw [task_analyze_eval f d st0 hf (not_lt.mpr hd) rfl]
  decide

/-- C5 witness: the quiet schedule with delay 0. -/
theorem analyze_prints_steps_insights_score_witness : task_analyze cF 0 st0 = .ok anFinal :=
  (analyze_prints_steps_insights_score cF 0 (fun _ => rfl) le_rfl).1

/-- C6: a run of the process task in which the interrupt flag is never set
prints, for each of the 5 fixed filenames in order, a processing header,
the 5 sub-step lines (Reading, Parsing, Transforming, Validating,
Writing) and a per-file success line, and finally the overall result line
stating 5 files processed and 0 errors. -/
theorem process_prints_files_substeps (f : Nat → Bool) (d : ℚ)
    (hf : ∀ n, f n = false) (hd : 0 ≤ d) :
    task_process f d st0 = .ok prFinal ∧
    prFinal.out =
      ["[INFO] Starting data processing task...",
       "[1/5] Processing data_001.csv...", "  • Reading... OK", "  • Parsing... OK",
       "  • Transforming... OK", "  • Validating... OK", "  • Writing... OK",
       "  ✓ data_001.csv processed successfully",
       "[2/5] Processing data_002.csv...", "  • Reading... OK", "  • Parsing... OK",
       "  • Transforming... OK", "  • Validating... OK", "  • Writing... OK",
       "  ✓ data_002.csv processed successfully",
       "[3/5] Processing data_003.csv...", "  • Reading... OK", "  • Parsing... OK",
       "  • Transforming... OK", "  • Validating... OK", "  • Writing... OK",
       "  ✓ data_003.csv processed successfully",
       "[4/5] Processing data_004.csv...", "  • Reading... OK", "  • Parsing... OK",
       "  • Transforming... OK", "  • Validating... OK", "  • Writing... OK",
       "  ✓ data_004.csv processed successfully",
       "[5/5] Processing data_005.csv...", "  • Reading... OK", "  • Parsing... OK",
       "  • Transforming... OK", "  • Validating... OK", "  • Writing... OK",
       "  ✓ data_005.csv processed successfully",
       "[SUCCESS] All files processed!", "[RESULT] Processed 5 files, 0 errors"] := by
  refine ⟨?_, by decide⟩
  rw [task_process_eval f d st0 hf (not_lt.mpr hd) rfl]
  decide

/-- C6 witness: the quiet schedule with delay 0. -/
theorem process_prints_files_substeps_witness : task_process cF 0 st0 = .ok prFinal :=
  (process_prints_files_substeps cF 0 (fun _ => rfl) le_rfl).1

/-- C7: for every `--task` value outside the three choices, argparse
fails before any task logic runs: exit status 2 (non-zero) and nothing on
stdout. -/
theorem invalid_task_rejected (f : Nat → Bool) (t : String) (d : ℚ)
    (ht : t ∉ validTasks) :
    parseArgs t d = .error 2 ∧ (mainRun f t d).stdout = [] ∧
      (mainRun f t d).exitCode = 2 ∧ (mainRun f t d).exitCode ≠ 0 := by
  have hp : parseArgs t d = .error 2 := by simp [parseArgs, ht]
  have hr : mainRun f t d =
      { stdout := [], stderr := ["usage: example-agent.py [--task] [--delay] (invalid choice)"],
        exitCode := 2, obs := [] } := by
    unfold mainRun
    rw [hp]
  rw [hr]
  exact ⟨hp, rfl, rfl, by decide⟩

/-- C7 witness: the rejected task value `build`. -/
theorem invalid_task_rejected_witness :
    parseArgs "build" 0 = .error 2 ∧ (mainRun cF "build" 0).stdout = [] ∧
      (mainRun cF "build" 0).exitCode = 2 ∧ (mainRun cF "build" 0).exitCode ≠ 0 :=
  invalid_task_rejected cF "build" 0 (by decide)

/-- C8: for a fixed task and delay, any two runs in which the interrupt
flag is never set (no signal is ever delivered) produce identical stdout,
stderr, exit code and checkpoint observations. -/
theorem deterministic_quiet_runs (f1 f2 : Nat → Bool) (t : String) (d : ℚ)
    (hf1 : ∀ n, f1 n = false) (hf2 : ∀ n, f2 n = false) :
    mainRun f1 t d = mainRun f2 t d :=
  mainRun_congr f1 f2 t d hf1 hf2

/-- C8 witness: two syntactically different quiet schedules. -/
theorem deterministic_quiet_runs_witness :
    mainRun cF "count" 0 = mainRun (fun n => decide (n + 1 = 0)) "count" 0 :=
  deterministic_quiet_runs cF (fun n => decide (n + 1 = 0)) "count" 0
    (fun _ => rfl) (fun n => by simp)

/-- C10: the interrupt flag starts false, every invocation of the signal
handler sets it to true and prints exactly the one informational line
(leaving the observation log untouched), and no operation ever resets the
flag; consequently the sequence of flag values observed at the program's
checkpoints is monotone in every run: once a checkpoint observes `true`,
every later checkpoint observes `true`. -/
theorem interrupt_flag_monotone (f : Nat → Bool) (t : String) (d : ℚ) (s : St) :
    st0.interrupted = false ∧
    (handlerFire s).interrupted = true ∧
    (handlerFire s).out = s.out ++ [sigLine] ∧
    (handlerFire s).obs = s.obs ∧
    monoObs (mainRun f t d).obs := by
  refine ⟨rfl, rfl, rfl, rfl, ?_⟩
  unfold mainRun
  rcases hp : parseArgs t d with c | cfg
  · exact List.Pairwise.nil
  · dsimp only
    have hInv : StInv (prList (bannerOut cfg.task cfg.delay) (checkFire f st0)) :=
      inv_prList _ _ (inv_checkFire f st0 inv_st0)
    have h2 := runTask_inv f cfg _ hInv
    rcases hr : runTask f cfg (prList (bannerOut cfg.task cfg.delay) (checkFire f st0))
        with e | s1
    · rw [hr] at h2
      exact h2.1
    · rw [hr] at h2
      by_cases hs1 : s1.interrupted
      · rw [finish_ok_true s1 hs1]
        have h3 := (inv_record s1 h2).1
        simpa [record, hs1] using h3
      · have hs1' : s1.interrupted = false := by simpa using hs1
        rw [finish_ok_false s1 hs1']
        have h3 := (inv_record s1 h2).1
        simpa [record, hs1'] using h3

/-- C3 counterexample: on an uninterrupted complete run the last stdout
line is the `[INFO] Agent finished successfully` line, which is not a
`[SUCCESS]` line. -/
theorem final_line_is_info_not_success :
    (mainRun cF "count" 0).exitCode = 0 ∧
    (mainRun cF "count" 0).stdout.getLast? = some "\n[INFO] Agent finished successfully" ∧
    strStarts "[SUCCESS]" "\n[INFO] Agent finished successfully" = false := by
  refine ⟨?_, ?_, by decide⟩
  · rw [mainRun_count_eval cF 0 (fun _ => rfl) (by norm_num)]
  · rw [mainRun_count_eval cF 0 (fun _ => rfl) (by norm_num)]
    decide

/-- C3 (amended): after the selected task returns, if the flag is set
main prints the warning as its last line and exits 1; if the flag is not
set main prints `[INFO] Agent finished successfully` as its last line and
exits 0.  Hence an uninterrupted complete run of any valid task yields
exit code 0, contains a `[SUCCESS]` line, and ends with the final
`[INFO] Agent finished successfully` line. -/
theorem exit_policy_and_success (f : Nat → Bool) (t : String) (d : ℚ) (s : St) :
    ((s.interrupted = true → (finish (.ok s)).exitCode = 1 ∧
      (finish (.ok s)).stdout.getLast? = some "\n[WARNING] Task was interrupted!") ∧
     (s.interrupted = false → (finish (.ok s)).exitCode = 0 ∧
      (finish (.ok s)).stdout.getLast? = some "\n[INFO] Agent finished successfully")) ∧
    ((∀ n, f n = false) → 0 ≤ d → t ∈ validTasks →
      (mainRun f t d).exitCode = 0 ∧
      (mainRun f t d).stdout.getLast? = some "\n[INFO] Agent finished successfully" ∧
      (mainRun f t d).stdout.any (fun x => strStarts "[SUCCESS]" x) = true) := by
  constructor
  · constructor
    · intro hs
      rw [finish_ok_true s hs]
      exact ⟨rfl, List.getLast?_concat _⟩
    · intro hs
      rw [finish_ok_false s hs]
      exact ⟨rfl, List.getLast?_concat _⟩
  · intro hf hd ht
    have hd' : ¬ d < 0 := not_lt.mpr hd
    have hcases : t = "count" ∨ t = "analyze" ∨ t = "process" := by
      simpa [validTasks] using ht
    rcases hcases with h | h | h <;> subst h
    · rw [mainRun_count_eval f d hf hd']
      refine ⟨rfl, List.getLast?_concat _, List.any_eq_true.mpr
        ⟨"[SUCCESS] Counting task completed!",
         List.mem_append.mpr (Or.inl (List.mem_append.mpr (Or.inr (by decide)))), by decide⟩⟩
    · rw [mainRun_analyze_eval f d hf hd']
      refine ⟨rfl, List.getLast?_concat _, List.any_eq_true.mpr
        ⟨"[SUCCESS] Analysis completed successfully!",
         List.mem_append.mpr (Or.inl (List.mem_append.mpr (Or.inr (by decide)))), by decide⟩⟩
    · rw [mainRun_process_eval f d hf hd']
      refine ⟨rfl, List.getLast?_concat _, List.any_eq_true.mpr
        ⟨"[SUCCESS] All files processed!",
         List.mem_append.mpr (Or.inl (List.mem_append.mpr (Or.inr (by decide)))), by decide⟩⟩

/-- C3 witness: both exit-policy branches and the uninterrupted count
run. -/
theorem exit_policy_and_success_witness :
    ((finish (.ok ⟨0, true, [], []⟩)).exitCode = 1 ∧
      (finish (.ok ⟨0, true, [], []⟩)).stdout.getLast?
        = some "\n[WARNING] Task was interrupted!") ∧
    ((finish (.ok st0)).exitCode = 0 ∧
      (finish (.ok st0)).stdout.getLast? = some "\n[INFO] Agent finished successfully") ∧
    ((mainRun cF "count" 0).exitCode = 0 ∧
      (mainRun cF "count" 0).stdout.getLast? = some "\n[INFO] Agent finished successfully" ∧
      (mainRun cF "count" 0).stdout.any (fun x => strStarts "[SUCCESS]" x) = true) :=
  ⟨(exit_policy_and_success cF "count" 0 ⟨0, true, [], []⟩).1.1 rfl,
   (exit_policy_and_success cF "count" 0 st0).1.2 rfl,
   (exit_policy_and_success cF "count" 0 st0).2 (fun _ => rfl) le_rfl (by decide)⟩

/-- C9: the parser accepts any finite float for `--delay`, negative
values included; a run with a negative delay passes argument parsing and
then terminates through the unexpected-error path with exit status 1
when `time.sleep` rejects the negative value. -/
theorem negative_delay_unexpected_error (f : Nat → Bool) (t : String) (d : ℚ)
    (hf : ∀ n, f n = false) (ht : t ∈ validTasks) (hd : d < 0) :
    parseArgs t d = .ok ⟨t, d⟩ ∧
    (mainRun f t d).exitCode = 1 ∧
    (mainRun f t d).stderr = ["\n[ERROR] Unexpected error: " ++ sleepErrMsg] := by
  have hp : parseArgs t d = .ok ⟨t, d⟩ := by simp [parseArgs, ht]
  refine ⟨hp, ?_⟩
  have hcases : t = "count" ∨ t = "analyze" ∨ t = "process" := by
    simpa [validTasks] using ht
  rcases hcases with h | h | h <;> subst h
  · unfold mainRun
    rw [show parseArgs "count" d = .ok ⟨"count", d⟩ from hp]
    dsimp only
    rw [mainRun_start f "count" d hf,
      show runTask f ⟨"count", d⟩ ⟨1, false, bannerOut "count" d, []⟩
        = task_count f d ⟨1, false, bannerOut "count" d, []⟩ from by simp [runTask]]
    unfold task_count
    rw [show List.range' 1 20 = 1 :: List.range' 2 19 from by decide]
    simp [countLoop, record, pr, sleep, hd, finish]
  · unfold mainRun
    rw [show parseArgs "analyze" d = .ok ⟨"analyze", d⟩ from hp]
    dsimp only
    rw [mainRun_start f "analyze" d hf,
      show runTask f ⟨"analyze", d⟩ ⟨1, false, bannerOut "analyze" d, []⟩
        = task_analyze f d ⟨1, false, bannerOut "analyze" d, []⟩ from by simp [runTask]]
    unfold task_analyze
    rw [show enumerate1 analyzeSteps = (1, "Loading data...") ::
      [(2, "Preprocessing data..."), (3, "Analyzing patterns..."),
       (4, "Computing statistics..."), (5, "Generating insights..."),
       (6, "Validating results..."), (7, "Preparing report..."),
       (8, "Finalizing analysis...")] from by decide]
    simp [analyzeLoop, record, pr, sleep, hd, finish]
  · unfold mainRun
    rw [show parseArgs "process" d = .ok ⟨"process", d⟩ from hp]
    dsimp only
    rw [mainRun_start f "process" d hf,
      show runTask f ⟨"process", d⟩ ⟨1, false, bannerOut "process" d, []⟩
        = task_process f d ⟨1, false, bannerOut "process" d, []⟩ from by simp [runTask]]
    unfold task_process
    rw [show enumerate1 processFiles = (1, "data_001.csv") ::
      [(2, "data_002.csv"), (3, "data_003.csv"), (4, "data_004.csv"),
       (5, "data_005.csv")] from by decide]
    have hd2 : d * (1/2) < 0 := (mulc_neg_iff d (1/2) (by norm_num)).mpr hd
    have herr : procLoop f d ((1, "data_001.csv") ::
        [(2, "data_002.csv"), (3, "data_003.csv"), (4, "data_004.csv"), (5, "data_005.csv")])
        (pr "[INFO] Starting data processing task..." ⟨1, false, bannerOut "process" d, []⟩)
        = .error (sleepErrMsg, pr (procLine 1 "data_001.csv")
            (record (pr "[INFO] Starting data processing task..."
              ⟨1, false, bannerOut "process" d, []⟩))) := by
      simp only [procLoop]
      rw [if_neg (by simp [record, pr] :
        ¬ (record (pr "[INFO] Starting data processing task..."
          (⟨1, false, bannerOut "process" d, []⟩ : St))).interrupted = true)]
      simp only [sleep, if_pos hd2]
    rw [herr]
    exact ⟨rfl, rfl⟩

/-- C9 witness: delay `-1` with the count task. -/
theorem negative_delay_unexpected_error_witness :
    parseArgs "count" (-1) = .ok ⟨"count", -1⟩ ∧
    (mainRun cF "count" (-1)).exitCode = 1 ∧
    (mainRun cF "count" (-1)).stderr = ["\n[ERROR] Unexpected error: " ++ sleepErrMsg] :=
  negative_delay_unexpected_error cF "count" (-1) (fun _ => rfl) (by decide) (by decide)

/-- Helper: the quiet process run from the initial state reaches its
expected final state. -/
theorem task_process_quiet : task_process cF 0 st0 = .ok prFinal := by
  rw [task_process_eval cF 0 st0 (fun _ => rfl) (by norm_num) rfl]
  decide

/-- C1 counterexample: with a signal arriving during the first sleep, the
count loop exits early at its second checkpoint (no `Count: 2/20` is
printed and the final flag is set), yet `task_count` still prints
`[SUCCESS] Counting task completed!`. -/
theorem count_success_despite_interrupt :
    task_count (fAt 0) 0 st0 = .ok ⟨1, true,
      ["[INFO] Starting counting task...", "Count: 1/20", sigLine,
       "[SUCCESS] Counting task completed!"], [false, true]⟩ ∧
    (resSt (task_count (fAt 0) 0 st0)).interrupted = true ∧
    "[SUCCESS] Counting task completed!" ∈ (resSt (task_count (fAt 0) 0 st0)).out ∧
    "Count: 2/20" ∉ (resSt (task_count (fAt 0) 0 st0)).out := by
  refine ⟨by decide, by decide, by decide, by decide⟩

/-- C1 (amended): for `task_analyze` and `task_process` the success
message and the task-specific result line are printed exactly when the
run finished with the interrupt flag unset; `task_count`, however, prints
its success message unconditionally, even when its loop exited early
because the flag was observed set. -/
theorem success_lines_guarded (f : Nat → Bool) (d : ℚ) (s' : St) :
    (task_analyze f d st0 = .ok s' →
      (("[SUCCESS] Analysis completed successfully!" ∈ s'.out ∧
        "[RESULT] Overall score: 87.5/100" ∈ s'.out) ↔ s'.interrupted = false)) ∧
    (task_process f d st0 = .ok s' →
      (("[SUCCESS] All files processed!" ∈ s'.out ∧
        "[RESULT] Processed 5 files, 0 errors" ∈ s'.out) ↔ s'.interrupted = false)) ∧
    (task_count f d st0 = .ok s' → "[SUCCESS] Counting task completed!" ∈ s'.out) := by
  refine ⟨?_, ?_, ?_⟩
  · intro h
    unfold task_analyze at h
    rcases hc : analyzeLoop f d (enumerate1 analyzeSteps)
        (pr "[INFO] Starting analysis task..." st0) with e | s1
    · rw [hc] at h
      simp at h
    · rw [hc] at h
      dsimp only at h
      by_cases hI : (record s1).interrupted
      · rw [if_pos hI] at h
        cases h
        constructor
        · rintro ⟨hsucc, -⟩
          have hmem := analyzeLoop_out_mem f d
            (fun x => x = "[SUCCESS] Analysis completed successfully!") (by decide)
            (enumerate1 analyzeSteps) _ s1 (by decide) hc
            "[SUCCESS] Analysis completed successfully!" hsucc rfl
          exact absurd hmem (by decide)
        · intro hfalse
          rw [hI] at hfalse
          exact absurd hfalse (by decide)
      · rw [if_neg hI] at h
        cases h
        have hI' : (record s1).interrupted = false := by simpa using hI
        constructor
        · intro _
          exact hI'
        · intro _
          exact ⟨List.mem_append.mpr (Or.inl (List.mem_append.mpr (Or.inr (by decide)))),
            List.mem_append.mpr (Or.inr (by decide))⟩
  · intro h
    unfold task_process at h
    rcases hc : procLoop f d (enumerate1 processFiles)
        (pr "[INFO] Starting data processing task..." st0) with e | s1
    · rw [hc] at h
      simp at h
    · rw [hc] at h
      dsimp only at h
      by_cases hI : (record s1).interrupted
      · rw [if_pos hI] at h
        cases h
        constructor
        · rintro ⟨hsucc, -⟩
          have hmem := procLoop_out_mem f d
            (fun x => x = "[SUCCESS] All files processed!") (by decide) (by decide)
            (enumerate1 processFiles) _ s1 (by decide) hc
            "[SUCCESS] All files processed!" hsucc rfl
          exact absurd hmem (by decide)
        · intro hfalse
          rw [hI] at hfalse
          exact absurd hfalse (by decide)
      · rw [if_neg hI] at h
        cases h
        have hI' : (record s1).interrupted = false := by simpa using hI
        constructor
        · intro _
          exact hI'
        · intro _
          exact ⟨List.mem_append.mpr (Or.inl (List.mem_append.mpr (Or.inr (by decide)))),
            List.mem_append.mpr (Or.inr (by decide))⟩
  · intro h
    unfold task_count at h
    rcases hc : countLoop f d (List.range' 1 20)
        (pr "[INFO] Starting counting task..." st0) with e | s1
    · rw [hc] at h
      simp at h
    · rw [hc] at h
      dsimp only at h
      cases h
      exact List.mem_append.mpr (Or.inr (by decide))

/-- C1 witness: the three implications at quiet-schedule runs. -/
theorem success_lines_guarded_witness :
    (("[SUCCESS] Analysis completed successfully!" ∈ anFinal.out ∧
      "[RESULT] Overall score: 87.5/100" ∈ anFinal.out) ↔ anFinal.interrupted = false) ∧
    (("[SUCCESS] All files processed!" ∈ prFinal.out ∧
      "[RESULT] Processed 5 files, 0 errors" ∈ prFinal.out) ↔ prFinal.interrupted = false) ∧
    "[SUCCESS] Counting task completed!" ∈ cntFinal.out :=
  ⟨(success_lines_guarded cF 0 anFinal).1 (by decide),
   (success_lines_guarded cF 0 prFinal).2.1 task_process_quiet,
   (success_lines_guarded cF 0 cntFinal).2.2 (by decide)⟩

set_option maxHeartbeats 1000000 in
/-- C2 counterexample: with a signal during the first sub-step sleep of
the process task, the run exits 1 with the warning, yet the per-file
check line `  ✓ data_001.csv processed successfully` is printed after the
checkpoint at which the flag was observed (strictly after the handler's
line in the stdout order). -/
theorem process_checkline_after_interrupt :
    (mainRun (fAt 2) "process" 0).stdout = bannerOut "process" 0 ++
      ["[INFO] Starting data processing task...", "[1/5] Processing data_001.csv...",
       "  • Reading... OK", sigLine, "  ✓ data_001.csv processed successfully",
       "\n[WARNING] Task was interrupted!"] ∧
    (mainRun (fAt 2) "process" 0).exitCode = 1 ∧
    List.indexOf sigLine (mainRun (fAt 2) "process" 0).stdout <
      List.indexOf "  ✓ data_001.csv processed successfully"
        (mainRun (fAt 2) "process" 0).stdout := by
  have hrun : mainRun (fAt 2) "process" 0 = ⟨bannerOut "process" 0 ++
      ["[INFO] Starting data processing task...", "[1/5] Processing data_001.csv...",
       "  • Reading... OK", sigLine, "  ✓ data_001.csv processed successfully",
       "\n[WARNING] Task was interrupted!"], [], 1,
      [false, false, true, true, true, true]⟩ := by
    unfold mainRun
    rw [show parseArgs "process" 0 = Except.ok ⟨"process", 0⟩ from by
      simp [parseArgs, validTasks]]
    dsimp only
    rw [show runTask (fAt 2) ⟨"process", 0⟩
        (prList (bannerOut "process" 0) (checkFire (fAt 2) st0))
        = task_process (fAt 2) 0 (prList (bannerOut "process" 0) (checkFire (fAt 2) st0))
        from by simp [runTask]]
    unfold task_process
    rw [show enumerate1 processFiles = (1, "data_001.csv") ::
      [(2, "data_002.csv"), (3, "data_003.csv"), (4, "data_004.csv"),
       (5, "data_005.csv")] from by decide]
    have h2 : ¬ ((0 : ℚ) * (1/2) < 0) := by norm_num
    have h2i : ¬ ((0 : ℚ) * 2⁻¹ < 0) := by norm_num
    have h5 : ¬ ((0 : ℚ) * (1/5) < 0) := by norm_num
    have h5i : ¬ ((0 : ℚ) * 5⁻¹ < 0) := by norm_num
    simp [procLoop, subLoop, sleep, checkFire, handlerFire, record, pr, prList,
      fAt, st0, subStepNames, finish, h2, h2i, h5, h5i]
    decide
  rw [hrun]
  exact ⟨rfl, rfl, by decide⟩

set_option maxHeartbeats 1000000 in
/-- C2 (amended): whenever a checkpoint at the head of a loop iteration
observes the flag set, the loop returns at once (no further numbered step
or sub-step line is printed by it), and any run in which some checkpoint
observed the flag set exits with code 1 and the `[WARNING]` line as its
last stdout line; however, in `task_process` the per-file check line IS
printed after the inner sub-step loop exits due to the flag. -/
theorem interrupt_checkpoint_stops (f : Nat → Bool) (t : String) (d : ℚ) (i : Nat)
    (step fn st : String) (restN : List Nat) (restP : List (Nat × String))
    (restS : List String) (s : St) :
    (s.interrupted = true →
      countLoop f d (i :: restN) s = .ok (record s) ∧
      analyzeLoop f d ((i, step) :: restP) s = .ok (record s) ∧
      subLoop f d (st :: restS) s = .ok (record s) ∧
      procLoop f d ((i, fn) :: restP) s = .ok (record s)) ∧
    (true ∈ (mainRun f t d).obs →
      (mainRun f t d).exitCode = 1 ∧
      (mainRun f t d).stdout.getLast? = some "\n[WARNING] Task was interrupted!") ∧
    task_process (fAt 1) 0 st0 = .ok ⟨2, true,
      ["[INFO] Starting data processing task...", "[1/5] Processing data_001.csv...",
       "  • Reading... OK", sigLine, "  ✓ data_001.csv processed successfully"],
      [false, false, true, true, true]⟩ := by
  refine ⟨fun h => ⟨countLoop_stop f d i restN s h,
    analyzeLoop_stop f d ⟨i, step⟩ restP s h,
    subLoop_stop f d st restS s h,
    procLoop_stop f d ⟨i, fn⟩ restP s h⟩,
    fun hm => mainRun_interrupted_exit f t d hm, ?_⟩
  unfold task_process
  rw [show enumerate1 processFiles = (1, "data_001.csv") ::
    [(2, "data_002.csv"), (3, "data_003.csv"), (4, "data_004.csv"),
     (5, "data_005.csv")] from by decide]
  have h2 : ¬ ((0 : ℚ) * (1/2) < 0) := by norm_num
  have h2i : ¬ ((0 : ℚ) * 2⁻¹ < 0) := by norm_num
  have h5 : ¬ ((0 : ℚ) * (1/5) < 0) := by norm_num
  have h5i : ¬ ((0 : ℚ) * 5⁻¹ < 0) := by norm_num
  simp [procLoop, subLoop, sleep, checkFire, handlerFire, record, pr,
    fAt, st0, subStepNames, h2, h2i, h5, h5i]
  decide

/-- C2 witness: the four stop lemmas at an interrupted state, and the
exit policy of a run interrupted during the first count sleep. -/
theorem interrupt_checkpoint_stops_witness :
    (countLoop cF 0 [1] ⟨0, true, [], []⟩ = .ok (record ⟨0, true, [], []⟩) ∧
     analyzeLoop cF 0 [(1, "x")] ⟨0, true, [], []⟩ = .ok (record ⟨0, true, [], []⟩) ∧
     subLoop cF 0 ["x"] ⟨0, true, [], []⟩ = .ok (record ⟨0, true, [], []⟩) ∧
     procLoop cF 0 [(1, "x")] ⟨0, true, [], []⟩ = .ok (record ⟨0, true, [], []⟩)) ∧
    ((mainRun (fAt 1) "count" 0).exitCode = 1 ∧
     (mainRun (fAt 1) "count" 0).stdout.getLast?
       = some "\n[WARNING] Task was interrupted!") :=
  ⟨(interrupt_checkpoint_stops cF "count" 0 1 "x" "x" "x" [] [] [] ⟨0, true, [], []⟩).1 rfl,
   (interrupt_checkpoint_stops (fAt 1) "count" 0 1 "x" "x" "x" [] [] [] st0).2.1 (by decide)⟩
